import Mathlib

/-!
Verification of the reader3 book-repository core: a shallow embedding of
`server.py` (slug resolution, record loading with legacy-slug fallback, the
LRU record cache, chapter navigation, image serving) and `migrate_slugs.py`
(migration planning and execution), together with theorems settling the
specification claims.

Python string operations are modelled at the character-list level (the inputs
of interest are ASCII): `pyEndsWith` models `str.endswith`, `pyLower` models
`str.lower`, `pyReplace` models `str.replace` (replace every non-overlapping
occurrence, scanning left to right), and `basename` models
`os.path.basename` on POSIX (everything after the last `/`).
-/

namespace Reader3

/-- Model of Python `str.endswith`. -/
def pyEndsWith (s suffix : String) : Bool :=
  s.data.drop (s.data.length - suffix.data.length) == suffix.data

/-- Model of Python `str.lower` (ASCII). -/
def pyLower (s : String) : String := ⟨s.data.map Char.toLower⟩

/-- Fuel-driven worker for `pyReplace`; the fuel is the length of the list,
which bounds the number of steps since `old` is non-empty at every call site. -/
def replaceLoop (old new : List Char) : Nat → List Char → List Char
  | 0, l => l
  | _ + 1, [] => []
  | fuel + 1, c :: rest =>
    if old.isPrefixOf (c :: rest) && !old.isEmpty then
      new ++ replaceLoop old new fuel ((c :: rest).drop old.length)
    else
      c :: replaceLoop old new fuel rest

/-- Model of Python `str.replace`: replace every non-overlapping occurrence of
`old` by `new`, scanning left to right. -/
def pyReplace (s old new : String) : String :=
  ⟨replaceLoop old.data new.data s.data.length s.data⟩

/-- Model of POSIX `os.path.basename`: the part of the string after the last
`/` (the whole string when there is no `/`). -/
def basename (s : String) : String :=
  ⟨(s.data.reverse.takeWhile (fun c => !(c == '/'))).reverse⟩

/-! ## Data model (`reader3.Book` and friends, as used by the two modules) -/

/-- `BookMetadata`: title and ordered author list. -/
structure BookMetadata where
  title : String
  authors : List String
  deriving DecidableEq, Repr

/-- `ChapterContent`: one chapter's payload; accessed only by spine position. -/
structure ChapterContent where
  content : String
  deriving DecidableEq, Repr

/-- `Book`: stored slug (empty string models an absent/empty slug on legacy
records), metadata, and the ordered spine of chapters. -/
structure Book where
  slug : String
  metadata : BookMetadata
  spine : List ChapterContent
  deriving DecidableEq, Repr

/-- State of a folder's `book.pkl` file: absent, present but failing to
deserialize (`pickle.load` raises), or deserializing to a `Book`. -/
inductive PklState where
  | missing
  | corrupt
  | good (b : Book)
  deriving DecidableEq, Repr

/-- One entry of the root directory listing: its name, whether it is a
directory, and the state of its `book.pkl`. -/
structure FolderEntry where
  name : String
  isDir : Bool
  pkl : PklState
  deriving DecidableEq, Repr

/-! ## `server.py` -/

/-- `BOOKS_DIR = "."` from `server.py`. -/
def BOOKS_DIR : String := "."

/-- `generate_slug_from_id` from `server.py`:
`folder_name.replace("_data", "").lower().replace(" ", "-").replace("_", "-")`. -/
def generate_slug_from_id (folder_name : String) : String :=
  pyReplace (pyReplace (pyLower (pyReplace folder_name "_data" "")) " " "-") "_" "-"

/-- The body of `load_book_cached` from `server.py`, as a pure function of the
folder name and the state of its `book.pkl`: missing file and deserialization
failure both yield `None`; a loaded book with a falsy (empty) `slug` gets the
legacy-derived slug filled in. -/
def load_book (folder_name : String) (pkl : PklState) : Option Book :=
  match pkl with
  | .missing => none
  | .corrupt => none
  | .good b =>
    some (if b.slug = "" then { b with slug := generate_slug_from_id folder_name } else b)

/-- The candidate filter used by every directory scan in `server.py`:
`item.endswith("_data") and os.path.isdir(...)`. -/
def isCandidate (e : FolderEntry) : Bool :=
  pyEndsWith e.name "_data" && e.isDir

/-- `find_book_by_slug` from `server.py`: walk the directory listing, load each
candidate, return the first whose (effective) slug equals the target. -/
def find_book_by_slug (slug : String) : List FolderEntry → Option (String × Book)
  | [] => none
  | e :: rest =>
    if isCandidate e then
      match load_book e.name e.pkl with
      | some b => if b.slug = slug then some (e.name, b) else find_book_by_slug slug rest
      | none => find_book_by_slug slug rest
    else find_book_by_slug slug rest

/-- One row of the library listing built by `library_view` in `server.py`. -/
structure LibraryEntry where
  slug : String
  title : String
  author : String
  chapters : Nat
  deriving DecidableEq, Repr

/-- `library_view` from `server.py`: one entry per candidate folder whose
record loads, in listing order. -/
def library_books (listing : List FolderEntry) : List LibraryEntry :=
  listing.filterMap (fun e =>
    if isCandidate e then
      (load_book e.name e.pkl).map (fun b =>
        ⟨b.slug, b.metadata.title, String.intercalate ", " b.metadata.authors, b.spine.length⟩)
    else none)

/-- The chapter lookup and prev/next computation of `read_chapter` in
`server.py`, for an already-resolved book.  The index is an `Int` because the
route converts the path segment to a Python `int`, which may be negative.
Returns `none` for the `404 Chapter not found` case. -/
def read_chapter (book : Book) (chapter_index : Int) : Option (ChapterContent × Option Int × Option Int) :=
  if chapter_index < 0 ∨ (book.spine.length : Int) ≤ chapter_index then none
  else
    (book.spine.get? chapter_index.toNat).map (fun ch =>
      (ch,
       if 0 < chapter_index then some (chapter_index - 1) else none,
       if chapter_index < (book.spine.length : Int) - 1 then some (chapter_index + 1) else none))

/-- Outcome of the reader routes in `server.py`. -/
inductive ReadResult where
  | bookNotFound
  | chapterNotFound
  | page (book : Book) (chapter : ChapterContent) (idx : Int) (prev next : Option Int)
  deriving DecidableEq, Repr

/-- The `/read/{book_slug}/{chapter_index}` route (`read_chapter` with
`folder_name=None`): resolve the slug, then look up the chapter. -/
def read_chapter_route (listing : List FolderEntry) (slug : String) (i : Int) : ReadResult :=
  match find_book_by_slug slug listing with
  | none => .bookNotFound
  | some (_, b) =>
    match read_chapter b i with
    | none => .chapterNotFound
    | some (ch, p, n) => .page b ch i p n

/-- `load_book_cached(folder_name)` as reached from `redirect_to_first_chapter`:
look the folder up in the listing and load it. -/
def lookup_load (listing : List FolderEntry) (fid : String) : Option Book :=
  match listing.find? (fun e => e.name == fid) with
  | some e => load_book e.name e.pkl
  | none => none

/-- The `/read/{book_slug}` route (`redirect_to_first_chapter`): resolve the
slug, then call `read_chapter` with the folder name set (which reloads the
book via the cache) and chapter index `0`. -/
def redirect_route (listing : List FolderEntry) (slug : String) : ReadResult :=
  match find_book_by_slug slug listing with
  | none => .bookNotFound
  | some (fid, _) =>
    match lookup_load listing fid with
    | none => .bookNotFound
    | some b =>
      match read_chapter b 0 with
      | none => .chapterNotFound
      | some (ch, p, n) => .page b ch 0 p n

/-- Outcome of the `serve_image` route in `server.py`. -/
inductive ImageResult where
  | bookNotFound
  | imageNotFound
  | file (path : List String)
  deriving DecidableEq, Repr

/-- `serve_image` from `server.py`: resolve the slug, sanitize the image name
with `os.path.basename`, join it under the book's `images/` directory
(`os.path.join(BOOKS_DIR, folder_name, "images", safe_image_name)`, modelled
as the list of joined components), and check existence.  `exists_fn` models
`os.path.exists` on the given filesystem. -/
def serve_image (exists_fn : List String → Bool) (listing : List FolderEntry)
    (slug image_name : String) : ImageResult :=
  match find_book_by_slug slug listing with
  | none => .bookNotFound
  | some (fid, _) =>
    let safe := basename image_name
    let p := [BOOKS_DIR, fid, "images", safe]
    if exists_fn p then .file p else .imageNotFound

/-- OS-level resolution of a relative path given as components (no symlinks):
drop empty and `.` components, let `..` remove the previous component. -/
def normalize (comps : List String) : List String :=
  comps.foldl (fun acc c =>
    if c = "" then acc
    else if c = "." then acc
    else if c = ".." then acc.dropLast
    else acc ++ [c]) []

/-- Specification predicate: path `p` resolves to a location directly inside
directory `dir` (exactly one component below it). -/
def directlyInside (dir p : List String) : Bool :=
  decide ((normalize p).dropLast = normalize dir ∧ normalize p ≠ [])

/-! ## The record cache (`@lru_cache(maxsize=10)` on `load_book_cached`) -/

/-- One access to a `functools.lru_cache`-style cache of capacity `cap` in
front of the loader `f`, keyed by folder name.  The cache is a list of
key/value pairs ordered from least to most recently used.  A hit moves the
entry to the most-recent end and returns the stored value; a miss computes
`f k`, evicting the least-recently-used entry first when the cache is full. -/
def lruAccess (cap : Nat) (f : String → Option Book)
    (c : List (String × Option Book)) (k : String) :
    Option Book × List (String × Option Book) :=
  match c.find? (fun p => p.1 == k) with
  | some p => (p.2, c.filter (fun q => !(q.1 == k)) ++ [p])
  | none =>
    let v := f k
    if cap ≤ c.length then (v, c.drop 1 ++ [(k, v)]) else (v, c ++ [(k, v)])

/-- The cache state after serving a sequence of `load_book_cached` calls for
the given folder names, starting from the empty cache, with capacity 10 as in
`server.py`. -/
def lruRun (f : String → Option Book) (ks : List String) : List (String × Option Book) :=
  ks.foldl (fun c k => (lruAccess 10 f c k).2) []

/-! ## `migrate_slugs.py` -/

/-- Modelled from the spec: `generate_slug` is imported from the `reader3`
module, which is not among the sources; the spec describes it as a pure,
deterministic, idempotent canonical transform that lowercases and hyphenates
a (Latin) title into a URL/filesystem-safe slug (non-Latin transliteration is
an external dependency outside the contract). -/
def generate_slug (title : String) : String :=
  pyReplace (pyLower title) " " "-"

/-- `scan_books` from `migrate_slugs.py`: candidate folders whose `book.pkl`
exists and deserializes; a load failure prints a warning and skips the entry.
The raw record is kept (no legacy-slug filling on this path). -/
def scan_books (fs : List FolderEntry) : List (String × Book) :=
  fs.filterMap (fun e =>
    if isCandidate e then
      match e.pkl with
      | .good b => some (e.name, b)
      | _ => none
    else none)

/-- The three-way classification computed by `main` in `migrate_slugs.py`,
with each list in the order entries were appended. -/
structure MigrationPlan where
  migrations : List (String × String × String)
  conflicts : List (String × String × String)
  unchanged : List (String × String)
  deriving DecidableEq, Repr

/-- `os.path.exists` for a top-level folder of the modelled root directory. -/
def fsExists (fs : List FolderEntry) (name : String) : Bool :=
  fs.any (fun e => e.name == name)

/-- The planning loop of `main` in `migrate_slugs.py`: for each scanned record
compute the canonical slug and target folder, then classify against the
current (scan-time) directory: same name → unchanged; target exists on disk →
conflict; otherwise → migration. -/
def classify (fs : List FolderEntry) (books : List (String × Book)) : MigrationPlan :=
  books.foldl (fun plan ob =>
    let new_slug := generate_slug ob.2.metadata.title
    let new_folder := new_slug ++ "_data"
    if new_folder = ob.1 then
      { plan with unchanged := plan.unchanged ++ [(ob.1, ob.2.metadata.title)] }
    else if fsExists fs new_folder then
      { plan with conflicts := plan.conflicts ++ [(ob.1, new_folder, ob.2.metadata.title)] }
    else
      { plan with migrations := plan.migrations ++ [(ob.1, new_slug, ob.2.metadata.title)] })
    ⟨[], [], []⟩

/-- `shutil.move(src, dst)` on the modelled root: when `dst` already exists as
a directory the source is moved *inside* it (becoming `dst/src`); otherwise
the source directory is renamed to `dst`. -/
def shutilMove (fs : List FolderEntry) (src dst : String) : List FolderEntry :=
  if fsExists fs dst then
    fs.map (fun e => if e.name == src then { e with name := dst ++ "/" ++ src } else e)
  else
    fs.map (fun e => if e.name == src then { e with name := dst } else e)

/-- The read–set-slug–dump sequence of the executor: rewrite the `slug` field
of the record stored in the folder currently named `folder`.  When that
folder's `book.pkl` is missing or corrupt the open/`pickle.load` raises and
nothing is written (the exception is caught by the per-entry handler). -/
def rewriteSlug (fs : List FolderEntry) (folder slug : String) : List FolderEntry :=
  fs.map (fun e =>
    if e.name == folder then
      { e with pkl := match e.pkl with
                      | .good b => .good { b with slug := slug }
                      | p => p }
    else e)

/-- One iteration of the executor loop in `main`: move the old folder to the
target name, then rewrite the slug of the record found at the target name.
If the source folder is gone, `shutil.move` raises and the per-entry handler
leaves everything unchanged; a failure after the move keeps the move. -/
def execMigration (fs : List FolderEntry) (m : String × String × String) : List FolderEntry :=
  let old_folder := m.1
  let new_slug := m.2.1
  let new_folder := new_slug ++ "_data"
  if fsExists fs old_folder then
    rewriteSlug (shutilMove fs old_folder new_folder) new_folder new_slug
  else fs

/-- `main` from `migrate_slugs.py` as a state transformer on the root
directory: scan, classify, and — unless the run is a dry run, a conflict
exists, there is nothing to migrate, or the operator declines — execute every
planned migration in order. -/
def migrate_main (dryRun confirmYes : Bool) (fs : List FolderEntry) : List FolderEntry :=
  let books := scan_books fs
  if books.isEmpty then fs
  else
    let plan := classify fs books
    if dryRun then fs
    else if !plan.conflicts.isEmpty then fs
    else if plan.migrations.isEmpty then fs
    else if !confirmYes then fs
    else plan.migrations.foldl execMigration fs

/-! ## Helper lemmas -/

/-- `find_book_by_slug` returns `none` exactly when no candidate's effective
slug matches. -/
lemma find_book_by_slug_eq_none_iff (slug : String) (l : List FolderEntry) :
    find_book_by_slug slug l = none ↔
      ∀ e ∈ l, isCandidate e = true →
        ∀ b, load_book e.name e.pkl = some b → b.slug ≠ slug := by
  induction l with
  | nil => simp [find_book_by_slug]
  | cons e rest ih =>
    by_cases hc : isCandidate e
    · cases hl : load_book e.name e.pkl with
      | none => simp [find_book_by_slug, hc, hl, ih]
      | some b =>
        by_cases hs : b.slug = slug
        · simp [find_book_by_slug, hc, hl, hs]
        · simp [find_book_by_slug, hc, hl, hs, ih]
    · simp [find_book_by_slug, hc, ih]

/-- A successful `find_book_by_slug` splits the listing at the first matching
candidate. -/
lemma find_book_by_slug_eq_some_split (slug : String) (l : List FolderEntry)
    (fid : String) (b : Book) (h : find_book_by_slug slug l = some (fid, b)) :
    ∃ l1 e l2, l = l1 ++ e :: l2 ∧ isCandidate e = true ∧
      load_book e.name e.pkl = some b ∧ fid = e.name ∧ b.slug = slug ∧
      ∀ e2 ∈ l1, isCandidate e2 = true →
        ∀ b2, load_book e2.name e2.pkl = some b2 → b2.slug ≠ slug := by
  induction l with
  | nil => simp [find_book_by_slug] at h
  | cons e rest ih =>
    by_cases hc : isCandidate e
    · cases hl : load_book e.name e.pkl with
      | none =>
        rw [find_book_by_slug, if_pos hc, hl] at h
        obtain ⟨l1, e1, l2, rfl, h1, h2, h3, h4, h5⟩ := ih h
        exact ⟨e :: l1, e1, l2, rfl, h1, h2, h3, h4, by
          intro e2 he2 hce2 b2 hb2
          rcases List.mem_cons.mp he2 with rfl | he2
          · rw [hl] at hb2; exact absurd hb2 (by simp)
          · exact h5 e2 he2 hce2 b2 hb2⟩
      | some b0 =>
        by_cases hs : b0.slug = slug
        · simp only [find_book_by_slug, if_pos hc, hl] at h
          rw [if_pos hs] at h
          obtain ⟨rfl, rfl⟩ : fid = e.name ∧ b = b0 := by
            constructor <;> · injection h with h'; cases h'; rfl
          exact ⟨[], e, rest, rfl, hc, hl, rfl, hs, by simp⟩
        · simp only [find_book_by_slug, if_pos hc, hl] at h
          rw [if_neg hs] at h
          obtain ⟨l1, e1, l2, rfl, h1, h2, h3, h4, h5⟩ := ih h
          exact ⟨e :: l1, e1, l2, rfl, h1, h2, h3, h4, by
            intro e2 he2 hce2 b2 hb2
            rcases List.mem_cons.mp he2 with rfl | he2
            · rw [hl] at hb2; injection hb2 with h'; rw [h'] at hs; exact hs
            · exact h5 e2 he2 hce2 b2 hb2⟩
    · rw [find_book_by_slug, if_neg hc] at h
      obtain ⟨l1, e1, l2, rfl, h1, h2, h3, h4, h5⟩ := ih h
      exact ⟨e :: l1, e1, l2, rfl, h1, h2, h3, h4, by
        intro e2 he2 hce2 b2 hb2
        rcases List.mem_cons.mp he2 with rfl | he2
        · exact absurd hce2 (by simp [hc])
        · exact h5 e2 he2 hce2 b2 hb2⟩

/-- With duplicate-free folder names, reloading the folder returned by
`find_book_by_slug` (as `redirect_to_first_chapter` does through
`load_book_cached`) yields the very book the search returned. -/
lemma lookup_load_of_find (slug : String) (listing : List FolderEntry)
    (fid : String) (b : Book)
    (hnodup : (listing.map FolderEntry.name).Nodup)
    (hfind : find_book_by_slug slug listing = some (fid, b)) :
    lookup_load listing fid = some b := by
  obtain ⟨l1, e, l2, rfl, _, hload, rfl, _, _⟩ :=
    find_book_by_slug_eq_some_split slug listing fid b hfind
  have hdisj : List.Disjoint (l1.map FolderEntry.name) ((e :: l2).map FolderEntry.name) := by
    rw [List.map_append] at hnodup
    exact List.disjoint_of_nodup_append hnodup
  have hnotin : ∀ e2 ∈ l1, (e2.name == e.name) = false := by
    intro e2 he2
    have hmm : e2.name ∉ (e :: l2).map FolderEntry.name := fun hmem =>
      hdisj (List.mem_map_of_mem FolderEntry.name he2) hmem
    simp only [List.map_cons, List.mem_cons] at hmm
    push_neg at hmm
    exact beq_eq_false_iff_ne.mpr hmm.1
  unfold lookup_load
  rw [List.find?_append]
  have h1 : l1.find? (fun e2 => e2.name == e.name) = none :=
    List.find?_eq_none.mpr (by intro x hx; simp [hnotin x hx])
  rw [h1]
  simp [List.find?_cons, hload]

/-! ## Claims -/

/-- C1: `find_book_by_slug` walks the directory listing, loads each candidate
folder (name ending in `_data`, a directory), compares the effective slug
(the stored slug, or the legacy-derived one when the stored slug is empty) to
the target, returns the first matching `(folder, book)` pair in listing
order, and returns `none` exactly when no candidate's effective slug
matches. -/
theorem c1_resolve_by_slug_first_match (slug : String) (listing : List FolderEntry) :
    (∀ fid b, find_book_by_slug slug listing = some (fid, b) →
      ∃ l1 e l2, listing = l1 ++ e :: l2 ∧ isCandidate e = true ∧
        load_book e.name e.pkl = some b ∧ fid = e.name ∧ b.slug = slug ∧
        ∀ e2 ∈ l1, isCandidate e2 = true →
          ∀ b2, load_book e2.name e2.pkl = some b2 → b2.slug ≠ slug) ∧
    (find_book_by_slug slug listing = none ↔
      ∀ e ∈ listing, isCandidate e = true →
        ∀ b, load_book e.name e.pkl = some b → b.slug ≠ slug) ∧
    (∀ name bk, (load_book name (PklState.good bk)).map Book.slug =
      some (if bk.slug = "" then generate_slug_from_id name else bk.slug)) := by
  refine ⟨fun fid b h => find_book_by_slug_eq_some_split slug listing fid b h,
    find_book_by_slug_eq_none_iff slug listing, ?_⟩
  intro name bk
  by_cases h : bk.slug = "" <;> simp [load_book, h]

/-- Witness for C1: on a concrete listing holding books `foo` and `bar`, the
slug `zzz` matches no candidate's effective slug, so resolution reports
not-found. -/
theorem c1_resolve_by_slug_first_match_witness :
    find_book_by_slug "zzz"
      [⟨"foo_data", true, .good ⟨"foo", ⟨"T1", []⟩, []⟩⟩,
       ⟨"bar_data", true, .good ⟨"", ⟨"T2", []⟩, []⟩⟩] = none :=
  (c1_resolve_by_slug_first_match "zzz"
      [⟨"foo_data", true, .good ⟨"foo", ⟨"T1", []⟩, []⟩⟩,
       ⟨"bar_data", true, .good ⟨"", ⟨"T2", []⟩, []⟩⟩]).2.1.mpr (by decide)

/-- C8: for a resolved book, a valid chapter index `i` (`0 ≤ i < len(spine)`)
yields the chapter together with `prev = i-1` when `i > 0` (else none) and
`next = i+1` when `i < len(spine)-1` (else none); an index outside that range
yields the chapter-not-found outcome. -/
theorem c8_chapter_navigation (b : Book) (i : Int) :
    (0 ≤ i → i < (b.spine.length : Int) →
      ∃ ch, b.spine.get? i.toNat = some ch ∧
        read_chapter b i = some (ch,
          (if 0 < i then some (i - 1) else none),
          (if i < (b.spine.length : Int) - 1 then some (i + 1) else none))) ∧
    ((i < 0 ∨ (b.spine.length : Int) ≤ i) → read_chapter b i = none) := by
  constructor
  · intro h0 hlt
    have hlen : i.toNat < b.spine.length := by omega
    refine ⟨b.spine.get ⟨i.toNat, hlen⟩, List.get?_eq_get hlen, ?_⟩
    unfold read_chapter
    rw [if_neg (by omega), List.get?_eq_get hlen]
    rfl
  · intro h
    unfold read_chapter
    rw [if_pos h]

/-- Witness for C8: on a three-chapter book, index 1 yields the middle chapter
with `prev = 0` and `next = 2`, and index `-1` is chapter-not-found. -/
theorem c8_chapter_navigation_witness :
    (∃ ch, (Book.mk "s" ⟨"T", []⟩ [⟨"c0"⟩, ⟨"c1"⟩, ⟨"c2"⟩]).spine.get? (Int.toNat 1) = some ch ∧
      read_chapter (Book.mk "s" ⟨"T", []⟩ [⟨"c0"⟩, ⟨"c1"⟩, ⟨"c2"⟩]) 1 = some (ch,
        (if (0 : Int) < 1 then some (1 - 1) else none),
        (if (1 : Int) < (((Book.mk "s" ⟨"T", []⟩ [⟨"c0"⟩, ⟨"c1"⟩, ⟨"c2"⟩]).spine.length : Int) - 1)
          then some (1 + 1) else none))) ∧
    read_chapter (Book.mk "s" ⟨"T", []⟩ [⟨"c0"⟩, ⟨"c1"⟩, ⟨"c2"⟩]) (-1) = none :=
  ⟨(c8_chapter_navigation (Book.mk "s" ⟨"T", []⟩ [⟨"c0"⟩, ⟨"c1"⟩, ⟨"c2"⟩]) 1).1
      (by decide) (by decide),
   (c8_chapter_navigation (Book.mk "s" ⟨"T", []⟩ [⟨"c0"⟩, ⟨"c1"⟩, ⟨"c2"⟩]) (-1)).2
      (by decide)⟩

/-- C2 counterexample: `os.path.basename` leaves a bare `..` untouched, so
for `image_name = ".."` the joined path resolves to the book folder itself,
not to a location directly inside the `images/` directory — refuting "the
resulting path is always directly inside that directory". -/
theorem c2_image_sanitization_counterexample :
    basename ".." = ".." ∧
    serve_image (fun _ => true)
        [⟨"foo_data", true, .good ⟨"foo", ⟨"T", []⟩, []⟩⟩] "foo" ".."
      = .file [BOOKS_DIR, "foo_data", "images", ".."] ∧
    directlyInside [BOOKS_DIR, "foo_data", "images"]
        [BOOKS_DIR, "foo_data", "images", basename ".."] = false ∧
    normalize [BOOKS_DIR, "foo_data", "images", basename ".."] = ["foo_data"] := by
  decide

/-- C2 (amended): `serve_image` sanitizes `image_name` with
`os.path.basename` before joining, which strips every path-separator and any
traversal segment in the directory part (`"../../etc/passwd" ↦ "passwd"`,
`"a/b.png" ↦ "b.png"`); whenever the resulting base component is not empty,
`"."`, or `".."`, the joined path is directly inside the resolved book's
`images/` directory; and when the sanitized file does not exist there the
route returns the image-not-found outcome.  A final component of `"."` or
`".."` passes through `basename` unchanged, which is the behavior the
counterexample exhibits. -/
theorem c2_image_sanitization_amended (listing : List FolderEntry)
    (slug image_name : String) (exists_fn : List String → Bool) :
    (basename "../../etc/passwd" = "passwd" ∧ basename "a/b.png" = "b.png") ∧
    (∀ fid, pyEndsWith fid "_data" = true →
      basename image_name ≠ "" → basename image_name ≠ "." → basename image_name ≠ ".." →
      directlyInside [BOOKS_DIR, fid, "images"]
        [BOOKS_DIR, fid, "images", basename image_name] = true) ∧
    (∀ fid b, find_book_by_slug slug listing = some (fid, b) →
      exists_fn [BOOKS_DIR, fid, "images", basename image_name] = false →
      serve_image exists_fn listing slug image_name = .imageNotFound) := by
  refine ⟨by decide, ?_, ?_⟩
  · intro fid hend h1 h2 h3
    have hf1 : fid ≠ "" := by rintro rfl; revert hend; decide
    have hf2 : fid ≠ "." := by rintro rfl; revert hend; decide
    have hf3 : fid ≠ ".." := by rintro rfl; revert hend; decide
    have hp : normalize [BOOKS_DIR, fid, "images", basename image_name]
        = [fid, "images", basename image_name] := by
      simp [normalize, BOOKS_DIR, hf1, hf2, hf3, h1, h2, h3]
    have hd : normalize [BOOKS_DIR, fid, "images"] = [fid, "images"] := by
      simp [normalize, BOOKS_DIR, hf1, hf2, hf3]
    unfold directlyInside
    rw [hp, hd]
    simp
  · intro fid b hfind hex
    simp only [serve_image, hfind]
    simp [hex]

/-- Witness for C2 (amended): a name with a separator is reduced to its base
component, lands directly inside `images/`, and a missing file yields the
image-not-found outcome. -/
theorem c2_image_sanitization_amended_witness :
    directlyInside [BOOKS_DIR, "img_data", "images"]
        [BOOKS_DIR, "img_data", "images", basename "a/b.png"] = true ∧
    serve_image (fun _ => false)
        [⟨"img_data", true, .good ⟨"s", ⟨"T", []⟩, []⟩⟩] "s" "a/b.png" = .imageNotFound :=
  ⟨(c2_image_sanitization_amended [⟨"img_data", true, .good ⟨"s", ⟨"T", []⟩, []⟩⟩]
      "s" "a/b.png" (fun _ => false)).2.1 "img_data"
      (by decide) (by decide) (by decide) (by decide),
   (c2_image_sanitization_amended [⟨"img_data", true, .good ⟨"s", ⟨"T", []⟩, []⟩⟩]
      "s" "a/b.png" (fun _ => false)).2.2 "img_data" ⟨"s", ⟨"T", []⟩, []⟩
      (by decide) rfl⟩

/-- C5: a folder whose record file is missing or fails to deserialize loads
as not-found rather than raising, and every directory scan — slug resolution,
the library listing, and the migration scan — yields the same result as if
the bad folder were absent, so one corrupt record never crashes a scan. -/
theorem c5_corrupt_record_never_crashes_scan (e : FolderEntry)
    (hbad : e.pkl = PklState.missing ∨ e.pkl = PklState.corrupt) :
    load_book e.name e.pkl = none ∧
    ∀ slug l1 l2,
      find_book_by_slug slug (l1 ++ e :: l2) = find_book_by_slug slug (l1 ++ l2) ∧
      library_books (l1 ++ e :: l2) = library_books (l1 ++ l2) ∧
      scan_books (l1 ++ e :: l2) = scan_books (l1 ++ l2) := by
  have hload : load_book e.name e.pkl = none := by
    rcases hbad with h | h <;> rw [h] <;> rfl
  refine ⟨hload, fun slug l1 l2 => ⟨?_, ?_, ?_⟩⟩
  · induction l1 with
    | nil =>
      simp only [List.nil_append]
      by_cases hc : isCandidate e <;> simp [find_book_by_slug, hc, hload]
    | cons a t ih =>
      simp only [List.cons_append, find_book_by_slug, List.append_eq, ih]
  · have hfe : (fun e2 : FolderEntry =>
        if isCandidate e2 then
          (load_book e2.name e2.pkl).map (fun b =>
            LibraryEntry.mk b.slug b.metadata.title
              (String.intercalate ", " b.metadata.authors) b.spine.length)
        else none) e = none := by
      by_cases hc : isCandidate e <;> simp [hc, hload]
    simp only [library_books, List.filterMap_append, List.filterMap_cons, hfe]
  · have hfe : (fun e2 : FolderEntry =>
        if isCandidate e2 then
          match e2.pkl with
          | PklState.good b => some (e2.name, b)
          | _ => none
        else none) e = none := by
      rcases hbad with h | h <;> by_cases hc : isCandidate e <;> simp [hc, h]
    simp only [scan_books, List.filterMap_append, List.filterMap_cons, hfe]

/-- Witness for C5: a concrete corrupt record loads as `none` and drops out of
the library listing without affecting the healthy book next to it. -/
theorem c5_corrupt_record_never_crashes_scan_witness :
    load_book "bad_data" PklState.corrupt = none ∧
    library_books [⟨"ok_data", true, .good ⟨"ok", ⟨"T", []⟩, []⟩⟩,
                   ⟨"bad_data", true, .corrupt⟩]
      = library_books [⟨"ok_data", true, .good ⟨"ok", ⟨"T", []⟩, []⟩⟩] :=
  ⟨(c5_corrupt_record_never_crashes_scan ⟨"bad_data", true, .corrupt⟩ (Or.inr rfl)).1,
   ((c5_corrupt_record_never_crashes_scan ⟨"bad_data", true, .corrupt⟩ (Or.inr rfl)).2
      "s" [⟨"ok_data", true, .good ⟨"ok", ⟨"T", []⟩, []⟩⟩] []).2.1⟩

/-- The legacy transform as the claim words it: strip the trailing storage
suffix `_data`, then lowercase and replace spaces and underscores with
hyphens (written from the claim's words, for comparison with the source's
`generate_slug_from_id`). -/
def legacy_transform_claimed (folder_name : String) : String :=
  let stem : String :=
    if pyEndsWith folder_name "_data" then ⟨folder_name.data.take (folder_name.data.length - 5)⟩
    else folder_name
  pyReplace (pyReplace (pyLower stem) " " "-") "_" "-"

/-- C6 counterexample: `generate_slug_from_id` uses `replace("_data", "")`,
which removes every occurrence of `_data`, not only the trailing storage
suffix; on the folder name `x_data_y_data` the code yields `x-y` while the
claimed suffix-strip transform yields `x-data-y`. -/
theorem c6_legacy_transform_counterexample :
    generate_slug_from_id "x_data_y_data" = "x-y" ∧
    legacy_transform_claimed "x_data_y_data" = "x-data-y" ∧
    generate_slug_from_id "x_data_y_data" ≠ legacy_transform_claimed "x_data_y_data" := by
  decide

/-- C6 (amended): the legacy fallback removes every occurrence of the
substring `_data` (not only the trailing suffix), lowercases, and replaces
spaces and underscores with hyphens; it is applied only when the loaded
record's stored slug is empty; folder `foo_data` with no stored slug and
title "Example" resolves to effective slug `foo` at read time, while
migration planning assigns the canonical slug `example` for that title. -/
theorem c6_legacy_fallback_amended :
    (∀ bk name, bk.slug ≠ "" → load_book name (PklState.good bk) = some bk) ∧
    (∀ bk name, bk.slug = "" →
      load_book name (PklState.good bk) = some { bk with slug := generate_slug_from_id name }) ∧
    generate_slug_from_id "foo_data" = "foo" ∧
    generate_slug "Example" = "example" ∧
    (classify [⟨"foo_data", true, .good ⟨"", ⟨"Example", []⟩, []⟩⟩]
        (scan_books [⟨"foo_data", true, .good ⟨"", ⟨"Example", []⟩, []⟩⟩])).migrations
      = [("foo_data", "example", "Example")] ∧
    generate_slug_from_id "x_data_y_data" = "x-y" := by
  refine ⟨?_, ?_, by decide, by decide, by decide, by decide⟩
  · intro bk name h; simp [load_book, h]
  · intro bk name h; simp [load_book, h]

/-- Witness for C6 (amended): the fallback fills the slug `foo` for a
slug-less record in `foo_data` and leaves a stored slug untouched. -/
theorem c6_legacy_fallback_amended_witness :
    load_book "foo_data" (PklState.good ⟨"", ⟨"Example", []⟩, []⟩)
      = some ⟨generate_slug_from_id "foo_data", ⟨"Example", []⟩, []⟩ ∧
    load_book "foo_data" (PklState.good ⟨"kept", ⟨"Example", []⟩, []⟩)
      = some ⟨"kept", ⟨"Example", []⟩, []⟩ :=
  ⟨c6_legacy_fallback_amended.2.1 ⟨"", ⟨"Example", []⟩, []⟩ "foo_data" rfl,
   c6_legacy_fallback_amended.1 ⟨"kept", ⟨"Example", []⟩, []⟩ "foo_data" (by decide)⟩

/-- C3 (code-bug exhibit): two records whose titles canonicalize to the same
slug, with no folder at the target name on disk, are BOTH classified as
renamable (neither is Conflicting, because the planning loop checks
`os.path.exists` only against the scan-time disk), and the executor then
changes the filesystem for both: the first folder is renamed to the target
and the second is moved *inside* it by `shutil.move`, leaving the second
record's slug stale. -/
theorem c3_duplicate_slug_executor_changes :
    let fs : List FolderEntry :=
      [⟨"a_data", true, .good ⟨"a", ⟨"Same Title", []⟩, []⟩⟩,
       ⟨"b_data", true, .good ⟨"b", ⟨"Same Title", []⟩, []⟩⟩]
    let plan := classify fs (scan_books fs)
    plan.conflicts = [] ∧
    plan.migrations = [("a_data", "same-title", "Same Title"),
                       ("b_data", "same-title", "Same Title")] ∧
    migrate_main false true fs
      = [⟨"same-title_data", true, .good ⟨"same-title", ⟨"Same Title", []⟩, []⟩⟩,
         ⟨"same-title_data/b_data", true, .good ⟨"b", ⟨"Same Title", []⟩, []⟩⟩] ∧
    migrate_main false true fs ≠ fs := by
  decide

/-- C7 (amended): the executor never runs when the planning-time
classification found any Conflicting entry — the conflict check happens
before any rename — so such a run leaves the filesystem untouched.  The
check is made only against the scan-time classification; it is not
re-validated at execution time (see the counterexample). -/
theorem c7_conflict_check_blocks_executor (fs : List FolderEntry)
    (dryRun confirmYes : Bool)
    (h : (classify fs (scan_books fs)).conflicts ≠ []) :
    migrate_main dryRun confirmYes fs = fs := by
  have hc : ((classify fs (scan_books fs)).conflicts.isEmpty : Bool) = false := by
    simp [List.isEmpty_iff, h]
  unfold migrate_main
  simp only [hc]
  split
  · rfl
  · split <;> rfl

/-- Witness for C7 (amended): a concrete library with one conflicting entry
(target `b_data` already occupied) is left completely unchanged by a
confirmed, non-dry run. -/
theorem c7_conflict_check_blocks_executor_witness :
    migrate_main false true
        [⟨"a_data", true, .good ⟨"a", ⟨"B", []⟩, []⟩⟩,
         ⟨"b_data", true, .good ⟨"bb", ⟨"B", []⟩, []⟩⟩]
      = [⟨"a_data", true, .good ⟨"a", ⟨"B", []⟩, []⟩⟩,
         ⟨"b_data", true, .good ⟨"bb", ⟨"B", []⟩, []⟩⟩] :=
  c7_conflict_check_blocks_executor _ false true (by decide)

/-- C7 counterexample: conflicts are not re-validated against the current
directory listing at execution time.  In a run where planning found no
conflict, the first rename creates the target `dup_data`; the executor's
second step then runs while the current listing contains its target — a
conflict by re-validation — and still performs a move (nesting the folder),
and that second step is exactly what the actual run executes. -/
theorem c7_no_revalidation_counterexample :
    let fs : List FolderEntry :=
      [⟨"c_data", true, .good ⟨"c", ⟨"Dup", []⟩, []⟩⟩,
       ⟨"d_data", true, .good ⟨"d", ⟨"Dup", []⟩, []⟩⟩]
    let plan := classify fs (scan_books fs)
    let fs1 := execMigration fs ("c_data", "dup", "Dup")
    plan.conflicts = [] ∧
    plan.migrations = [("c_data", "dup", "Dup"), ("d_data", "dup", "Dup")] ∧
    fsExists fs1 "dup_data" = true ∧
    execMigration fs1 ("d_data", "dup", "Dup") ≠ fs1 ∧
    migrate_main false true fs = execMigration fs1 ("d_data", "dup", "Dup") := by
  decide

/-- Erase the one record field migration is allowed to rewrite (the slug),
keeping everything else: deserialization status, metadata, and spine. -/
def pklFrame : PklState → PklState
  | .good b => .good { b with slug := "" }
  | p => p

/-- The slug-erased, name-erased view of a folder entry: everything a
migration run is NOT allowed to change. -/
def frameOf (e : FolderEntry) : Bool × PklState := (e.isDir, pklFrame e.pkl)

/-- `shutil.move` changes only the folder name. -/
lemma shutilMove_frame (fs : List FolderEntry) (src dst : String) :
    (shutilMove fs src dst).map frameOf = fs.map frameOf := by
  unfold shutilMove
  split <;>
  · rw [List.map_map]
    apply List.map_congr_left
    intro e _
    by_cases h : e.name = src <;> simp [frameOf, h]

/-- The slug rewrite changes only the slug field of the targeted record. -/
lemma rewriteSlug_frame (fs : List FolderEntry) (folder slug : String) :
    (rewriteSlug fs folder slug).map frameOf = fs.map frameOf := by
  unfold rewriteSlug
  rw [List.map_map]
  apply List.map_congr_left
  intro e _
  by_cases h : e.name = folder
  · cases hp : e.pkl <;> simp [frameOf, h, hp, pklFrame]
  · simp [frameOf, h]

/-- One executor step changes only folder names and slug fields. -/
lemma execMigration_frame (fs : List FolderEntry) (m : String × String × String) :
    (execMigration fs m).map frameOf = fs.map frameOf := by
  simp only [execMigration]
  split
  · rw [rewriteSlug_frame, shutilMove_frame]
  · rfl

/-- The whole executor loop changes only folder names and slug fields. -/
lemma foldl_execMigration_frame (ms : List (String × String × String))
    (fs : List FolderEntry) :
    (ms.foldl execMigration fs).map frameOf = fs.map frameOf := by
  induction ms generalizing fs with
  | nil => rfl
  | cons m ms ih => rw [List.foldl_cons, ih, execMigration_frame]

/-- C9 (amended): a migration run's only persisted side effects are folder
moves and slug-field overwrites: position by position, every folder keeps its
directory status, its record's deserialization status, its metadata (title,
authors), and its spine — only the folder name and the stored slug may
differ. -/
theorem c9_migration_frame (dryRun confirmYes : Bool) (fs : List FolderEntry) :
    (migrate_main dryRun confirmYes fs).map frameOf = fs.map frameOf := by
  simp only [migrate_main]
  split
  · rfl
  · split
    · rfl
    · split
      · rfl
      · split
        · rfl
        · split
          · rfl
          · exact foldl_execMigration_frame _ fs

/-- C9 counterexample: under a duplicate canonical slug, the second processed
record does NOT get "the folder rename and the overwrite of its slug field at
the renamed location": its folder is moved inside the first record's target
folder and its stored slug stays `"f"`, while the overwrite lands on the
other record's file. -/
theorem c9_slug_rewrite_counterexample :
    let fs : List FolderEntry :=
      [⟨"e_data", true, .good ⟨"e", ⟨"Twin", []⟩, []⟩⟩,
       ⟨"f_data", true, .good ⟨"f", ⟨"Twin", []⟩, []⟩⟩]
    (classify fs (scan_books fs)).migrations
      = [("e_data", "twin", "Twin"), ("f_data", "twin", "Twin")] ∧
    migrate_main false true fs
      = [⟨"twin_data", true, .good ⟨"twin", ⟨"Twin", []⟩, []⟩⟩,
         ⟨"twin_data/f_data", true, .good ⟨"f", ⟨"Twin", []⟩, []⟩⟩] := by
  decide

/-- One `lru_cache` access keeps the cache within its capacity. -/
lemma lruAccess_length_le (cap : Nat) (f : String → Option Book)
    (c : List (String × Option Book)) (k : String)
    (hcap : 0 < cap) (hc : c.length ≤ cap) :
    ((lruAccess cap f c k).2).length ≤ cap := by
  unfold lruAccess
  cases hfind : c.find? (fun q => q.1 == k) with
  | some pr =>
    have hp : pr ∈ c := List.mem_of_find?_eq_some hfind
    have hpk : (pr.1 == k) = true := by simpa using List.find?_some hfind
    have hlt : (c.filter (fun q => !(q.1 == k))).length < c.length := by
      rw [List.length_filter_lt_length_iff_exists]
      exact ⟨pr, hp, by simp [hpk]⟩
    show (c.filter (fun q => !(q.1 == k)) ++ [pr]).length ≤ cap
    rw [List.length_append]
    simp only [List.length_cons, List.length_nil]
    omega
  | none =>
    show ((if cap ≤ c.length then (f k, c.drop 1 ++ [(k, f k)])
           else (f k, c ++ [(k, f k)])).2).length ≤ cap
    split
    · show (c.drop 1 ++ [(k, f k)]).length ≤ cap
      rw [List.length_append, List.length_drop]
      simp only [List.length_cons, List.length_nil]
      omega
    · show (c ++ [(k, f k)]).length ≤ cap
      rw [List.length_append]
      simp only [List.length_cons, List.length_nil]
      omega

/-- Any access sequence from the empty cache stays within 10 entries. -/
lemma lruRun_length_le (f : String → Option Book) (ks : List String) :
    (lruRun f ks).length ≤ 10 := by
  suffices h : ∀ (ks : List String) (c : List (String × Option Book)),
      c.length ≤ 10 → (ks.foldl (fun c k => (lruAccess 10 f c k).2) c).length ≤ 10 by
    exact h ks [] (by simp)
  intro ks
  induction ks with
  | nil => intro c hc; simpa using hc
  | cons k ks ih =>
    intro c hc
    exact ih _ (lruAccess_length_le 10 f c k (by omega) hc)

/-- C4: the record cache is keyed by folder identifier, never exceeds 10
entries, and when an 11th distinct folder is loaded into a full cache exactly
the least-recently-accessed entry (the head of the recency list) is evicted,
the rest being kept in order with the new entry most recent. -/
theorem c4_lru_cache_bound_and_eviction (f : String → Option Book) :
    (∀ ks, (lruRun f ks).length ≤ 10) ∧
    (∀ c k, c.length = 10 → c.find? (fun p => p.1 == k) = none →
      (lruAccess 10 f c k).2 = c.tail ++ [(k, f k)]) := by
  refine ⟨fun ks => lruRun_length_le f ks, ?_⟩
  intro c k h10 hfind
  unfold lruAccess
  rw [hfind]
  show ((if (10 : Nat) ≤ c.length then (f k, c.drop 1 ++ [(k, f k)])
         else (f k, c ++ [(k, f k)])).2) = c.tail ++ [(k, f k)]
  rw [if_pos (by omega)]
  show c.drop 1 ++ [(k, f k)] = c.tail ++ [(k, f k)]
  rw [List.drop_one]

/-- Witness for C4: loading ten distinct folders, touching `f1`, then loading
an 11th evicts exactly the untouched least-recent `f2` and keeps `f1`. -/
theorem c4_lru_cache_bound_and_eviction_witness :
    lruRun (fun _ => none)
        ["f1", "f2", "f3", "f4", "f5", "f6", "f7", "f8", "f9", "f10", "f1"]
      = [("f2", none), ("f3", none), ("f4", none), ("f5", none), ("f6", none),
         ("f7", none), ("f8", none), ("f9", none), ("f10", none), ("f1", none)] ∧
    (lruAccess 10 (fun _ => none)
        [("f2", none), ("f3", none), ("f4", none), ("f5", none), ("f6", none),
         ("f7", none), ("f8", none), ("f9", none), ("f10", none), ("f1", none)] "f11").2
      = List.tail
          [("f2", none), ("f3", none), ("f4", none), ("f5", none), ("f6", none),
           ("f7", none), ("f8", none), ("f9", none), ("f10", none), ("f1", none)]
        ++ [("f11", none)] ∧
    (List.tail
        [("f2", none), ("f3", none), ("f4", none), ("f5", none), ("f6", none),
         ("f7", none), ("f8", none), ("f9", none), ("f10", none), ("f1", none)]
      ++ [(("f11" : String), (none : Option Book))]).map Prod.fst
      = ["f3", "f4", "f5", "f6", "f7", "f8", "f9", "f10", "f1", "f11"] :=
  ⟨by decide,
   (c4_lru_cache_bound_and_eviction (fun _ => none)).2
     [("f2", none), ("f3", none), ("f4", none), ("f5", none), ("f6", none),
      ("f7", none), ("f8", none), ("f9", none), ("f10", none), ("f1", none)]
     "f11" (by decide) (by decide),
   by decide⟩

/-- C10: a book with an empty spine still resolves by slug and appears in the
library listing with a chapter count of 0, but every chapter request — any
index on the chapter route, and the default route that targets chapter 0 —
fails with the chapter-not-found outcome. -/
theorem c10_empty_spine_resolvable_unreadable (listing : List FolderEntry)
    (fid : String) (b : Book) (s : String)
    (hnodup : (listing.map FolderEntry.name).Nodup)
    (hfind : find_book_by_slug s listing = some (fid, b))
    (hempty : b.spine = []) :
    (∃ entry ∈ library_books listing, entry.slug = b.slug ∧ entry.chapters = 0) ∧
    (∀ i, read_chapter_route listing s i = ReadResult.chapterNotFound) ∧
    redirect_route listing s = ReadResult.chapterNotFound := by
  have hrc : ∀ i, read_chapter b i = none := by
    intro i
    unfold read_chapter
    rw [if_pos (by simp [hempty]; omega)]
  refine ⟨?_, ?_, ?_⟩
  · obtain ⟨l1, e, l2, heq, hcand, hload, hfid, hslug, _⟩ :=
      find_book_by_slug_eq_some_split s listing fid b hfind
    refine ⟨⟨b.slug, b.metadata.title,
        String.intercalate ", " b.metadata.authors, b.spine.length⟩,
      ?_, rfl, by simp [hempty]⟩
    refine List.mem_filterMap.mpr ⟨e, ?_, by simp [hcand, hload]⟩
    rw [heq]
    exact List.mem_append.mpr (Or.inr (List.mem_cons_self e l2))
  · intro i
    simp [read_chapter_route, hfind, hrc]
  · have hlook := lookup_load_of_find s listing fid b hnodup hfind
    simp [redirect_route, hfind, hlook, hrc]

/-- Witness for C10: a concrete zero-chapter book is listed with `chapters = 0`
and both reader routes answer chapter-not-found. -/
theorem c10_empty_spine_resolvable_unreadable_witness :
    (∃ entry ∈ library_books [⟨"empty_data", true, .good ⟨"empty", ⟨"T", []⟩, []⟩⟩],
      entry.slug = (Book.mk "empty" ⟨"T", []⟩ []).slug ∧ entry.chapters = 0) ∧
    (∀ i, read_chapter_route [⟨"empty_data", true, .good ⟨"empty", ⟨"T", []⟩, []⟩⟩]
        "empty" i = ReadResult.chapterNotFound) ∧
    redirect_route [⟨"empty_data", true, .good ⟨"empty", ⟨"T", []⟩, []⟩⟩] "empty"
      = ReadResult.chapterNotFound :=
  c10_empty_spine_resolvable_unreadable
    [⟨"empty_data", true, .good ⟨"empty", ⟨"T", []⟩, []⟩⟩]
    "empty_data" (Book.mk "empty" ⟨"T", []⟩ []) "empty"
    (by decide) (by decide) rfl

end Reader3
